import Mathlib

/-!
Verification of the OpenClass realtime pipeline (`openclass/` Python sources).

This file gives a shallow embedding, in Lean 4, of the pure logic of:

* `AIEngine._parse_json_response`, `AIEngine._detect_question` and
  `AIEngine._periodic_loop` (`openclass/ai_engine.py`);
* `EventBus.publish` / `EventBus.get_history` (`openclass/events.py`);
* `AudioCapture._enqueue` (`openclass/audio.py`);
* the `TingwuClient` streaming lifecycle (`openclass/speech.py`);

together with theorems about scheduling gates, deduplication, event fan-out,
history bounds, queue overflow and lifecycle guards.

Modelling conventions:

* Python wall-clock times (`time.time()` floats) are modelled as integer
  epoch seconds; the scheduler only subtracts and compares them.
* JSON numbers are modelled as rationals (Python distinguishes int/float;
  every comparison performed by the code is purely numeric, so the collapse
  is harmless for the properties proved here).
* Fallible Python code is modelled with `Option`/`Except`; a caught-and-logged
  exception is modelled by the handler returning normally.
* Async interleaving is modelled by explicit sequential state passing; the
  analysis code under study is serialized by `_analysis_lock`, and the
  periodic loop is a single task, so each operation runs atomically with
  respect to the state it touches.
-/

/-! ## A model of decoded JSON values (Python `json.loads` results)

`json.loads` is Python standard library, not repository code; the model below
implements the JSON grammar (strict mode: no leading/trailing garbage, objects
and arrays fully parsed) on the fragment the repository exchanges with its
LLM: null/true/false, numbers, strings with the standard escapes, arrays and
objects.  Python surrogate-pair escapes are out of scope.
-/

mutual
inductive Json where
  | null
  | bool (b : Bool)
  | num (q : ℚ)
  | str (s : String)
  | arr (elems : JsonSeq)
  | obj (members : JsonMembers)
deriving Repr, DecidableEq

inductive JsonSeq where
  | nil
  | cons (hd : Json) (tl : JsonSeq)
deriving Repr, DecidableEq

inductive JsonMembers where
  | nil
  | cons (key : String) (val : Json) (tl : JsonMembers)
deriving Repr, DecidableEq
end

/-- Build an object member list from a plain Lean list (display helper). -/
def JsonMembers.ofList : List (String × Json) → JsonMembers
  | [] => JsonMembers.nil
  | kv :: rest => JsonMembers.cons kv.1 kv.2 (JsonMembers.ofList rest)

/-- The character 0x7b, an opening curly brace. -/
def lbrace : Char := Char.ofNat 123

/-- The character 0x7d, a closing curly brace. -/
def rbrace : Char := Char.ofNat 125

/-- JSON insignificant whitespace. -/
def jsonSkipWs : List Char → List Char
  | [] => []
  | c :: cs => if c = ' ' ∨ c = '\t' ∨ c = '\n' ∨ c = '\r' then jsonSkipWs cs else c :: cs

/-- Numeric value of a decimal digit character. -/
def digitVal (c : Char) : ℕ := c.toNat - 48

/-- Split a character list into its leading run of decimal digits and the rest. -/
def takeDigits : List Char → List Char × List Char
  | [] => ([], [])
  | c :: cs =>
    if c.isDigit then
      let p := takeDigits cs
      (c :: p.1, p.2)
    else ([], c :: cs)

/-- Decimal digits to a natural number. -/
def digitsToNat (ds : List Char) : ℕ := ds.foldl (fun n c => 10 * n + digitVal c) 0

/-- Is `c` a hexadecimal digit. -/
def isHex (c : Char) : Bool :=
  decide ('0' ≤ c ∧ c ≤ '9') || decide ('a' ≤ c ∧ c ≤ 'f') || decide ('A' ≤ c ∧ c ≤ 'F')

/-- Numeric value of a hexadecimal digit character. -/
def hexVal (c : Char) : ℕ :=
  if decide ('0' ≤ c ∧ c ≤ '9') then c.toNat - 48
  else if decide ('a' ≤ c ∧ c ≤ 'f') then c.toNat - 87
  else if decide ('A' ≤ c ∧ c ≤ 'F') then c.toNat - 55
  else 0

/-- Exponent suffix of a JSON number: optional sign then at least one digit.
Returns (negated?, magnitude, rest). -/
def parseExpTail (cs : List Char) : Option (Bool × ℕ × List Char) :=
  let signed : Bool × List Char :=
    match cs with
    | '+' :: rest => (false, rest)
    | '-' :: rest => (true, rest)
    | _ => (false, cs)
  let ds := takeDigits signed.2
  if ds.1.isEmpty then none else some (signed.1, digitsToNat ds.1, ds.2)

/-- A JSON number: optional minus, integer digits, optional fraction, optional
exponent; its value as a rational.  The value is assembled from integer
arithmetic and a single `mkRat` so that it evaluates by kernel reduction. -/
def parseNumber (cs0 : List Char) : Option (ℚ × List Char) :=
  let signed : Bool × List Char :=
    match cs0 with
    | '-' :: rest => (true, rest)
    | _ => (false, cs0)
  let ip := takeDigits signed.2
  if ip.1.isEmpty then none
  else
    let fracState : Option (List Char × List Char) :=
      match ip.2 with
      | '.' :: rest =>
          let fp := takeDigits rest
          if fp.1.isEmpty then none else some (fp.1, fp.2)
      | rest => some ([], rest)
    match fracState with
    | none => none
    | some (fracDs, cs2) =>
        let expState : Option (Bool × ℕ × List Char) :=
          match cs2 with
          | 'e' :: rest => parseExpTail rest
          | 'E' :: rest => parseExpTail rest
          | rest => some (false, 0, rest)
        match expState with
        | none => none
        | some (expNeg, expVal, cs3) =>
            let mantissa : ℤ := (digitsToNat ip.1 * 10 ^ fracDs.length + digitsToNat fracDs : ℕ)
            let mantissa : ℤ := if signed.1 then -mantissa else mantissa
            let value : ℚ :=
              if expNeg then mkRat mantissa (10 ^ (fracDs.length + expVal))
              else mkRat (mantissa * 10 ^ expVal) (10 ^ fracDs.length)
            some (value, cs3)

/-- Body of a JSON string after the opening quote; `acc` holds the decoded
characters in reverse. -/
def parseStringBody : List Char → List Char → Option (String × List Char)
  | [], _ => none
  | '"' :: rest, acc => some (String.mk acc.reverse, rest)
  | '\\' :: '"' :: rest, acc => parseStringBody rest ('"' :: acc)
  | '\\' :: '\\' :: rest, acc => parseStringBody rest ('\\' :: acc)
  | '\\' :: '/' :: rest, acc => parseStringBody rest ('/' :: acc)
  | '\\' :: 'b' :: rest, acc => parseStringBody rest (Char.ofNat 8 :: acc)
  | '\\' :: 'f' :: rest, acc => parseStringBody rest (Char.ofNat 12 :: acc)
  | '\\' :: 'n' :: rest, acc => parseStringBody rest ('\n' :: acc)
  | '\\' :: 'r' :: rest, acc => parseStringBody rest (Char.ofNat 13 :: acc)
  | '\\' :: 't' :: rest, acc => parseStringBody rest ('\t' :: acc)
  | '\\' :: 'u' :: a :: b :: c :: d :: rest, acc =>
      if isHex a && isHex b && isHex c && isHex d then
        parseStringBody rest
          (Char.ofNat (((hexVal a * 16 + hexVal b) * 16 + hexVal c) * 16 + hexVal d) :: acc)
      else none
  | '\\' :: _, _ => none
  | c :: rest, acc => parseStringBody rest (c :: acc)

mutual
/-- A JSON value (fuel-indexed recursive descent). -/
def parseValue : ℕ → List Char → Option (Json × List Char)
  | 0, _ => none
  | Nat.succ fuel, cs0 =>
    match jsonSkipWs cs0 with
    | [] => none
    | 'n' :: 'u' :: 'l' :: 'l' :: rest => some (Json.null, rest)
    | 't' :: 'r' :: 'u' :: 'e' :: rest => some (Json.bool true, rest)
    | 'f' :: 'a' :: 'l' :: 's' :: 'e' :: rest => some (Json.bool false, rest)
    | '"' :: rest => Option.map (fun p => (Json.str p.1, p.2)) (parseStringBody rest [])
    | '[' :: rest =>
        (match jsonSkipWs rest with
         | ']' :: r2 => some (Json.arr JsonSeq.nil, r2)
         | r1 => Option.map (fun p => (Json.arr p.1, p.2)) (parseElements fuel r1))
    | c :: rest =>
        if c = lbrace then
          (match jsonSkipWs rest with
           | [] => none
           | d :: r2 =>
              if d = rbrace then some (Json.obj JsonMembers.nil, r2)
              else Option.map (fun p => (Json.obj p.1, p.2)) (parseMembers fuel (d :: r2)))
        else Option.map (fun p => (Json.num p.1, p.2)) (parseNumber (c :: rest))

/-- One or more comma-separated array elements followed by a closing bracket. -/
def parseElements : ℕ → List Char → Option (JsonSeq × List Char)
  | 0, _ => none
  | Nat.succ fuel, cs => do
      let pv ← parseValue fuel cs
      match jsonSkipWs pv.2 with
      | ',' :: r2 => do
          let pe ← parseElements fuel r2
          pure (JsonSeq.cons pv.1 pe.1, pe.2)
      | ']' :: r2 => pure (JsonSeq.cons pv.1 JsonSeq.nil, r2)
      | _ => none

/-- One or more comma-separated `"key": value` members followed by a closing
brace. -/
def parseMembers : ℕ → List Char → Option (JsonMembers × List Char)
  | 0, _ => none
  | Nat.succ fuel, cs =>
      match jsonSkipWs cs with
      | '"' :: r0 => do
          let pk ← parseStringBody r0 []
          match jsonSkipWs pk.2 with
          | ':' :: r2 => do
              let pv ← parseValue fuel r2
              (match jsonSkipWs pv.2 with
               | ',' :: r4 => do
                   let pm ← parseMembers fuel r4
                   pure (JsonMembers.cons pk.1 pv.1 pm.1, pm.2)
               | e :: r4 =>
                   if e = rbrace then pure (JsonMembers.cons pk.1 pv.1 JsonMembers.nil, r4)
                   else none
               | [] => none)
          | _ => none
      | _ => none
end

/-- Model of Python `json.loads`: decode a complete JSON document, rejecting
leading or trailing garbage; `none` models a raised `json.JSONDecodeError`. -/
def jsonLoads (s : String) : Option Json :=
  match parseValue (2 * s.length + 2) s.toList with
  | some pv => if (jsonSkipWs pv.2).isEmpty then some pv.1 else none
  | none => none

/-! ## Python string primitives

Python `str` values are sequences of code points, i.e. `List Char`; the
helpers below implement the `str` methods used by
`AIEngine._parse_json_response` directly on the character list so that they
evaluate by kernel reduction.  `str.strip()` removes unicode whitespace; the
ASCII subset suffices for the texts considered here.
-/

/-- Python whitespace test (ASCII fragment). -/
def pyCharIsSpace (c : Char) : Bool :=
  decide (c = ' ' ∨ c = '\t' ∨ c = '\n' ∨ c = '\r' ∨ c = Char.ofNat 11 ∨ c = Char.ofNat 12)

/-- Python `s.strip()`. -/
def pyStrip (s : String) : String :=
  String.mk (((s.toList.dropWhile pyCharIsSpace).reverse.dropWhile pyCharIsSpace).reverse)

/-- Python `s.startswith(pre)`. -/
def pyStartsWith (s pre : String) : Bool := pre.toList.isPrefixOf s.toList

/-- Python `s.endswith(suf)`. -/
def pyEndsWith (s suf : String) : Bool := suf.toList.isSuffixOf s.toList

/-- Python `s[n:]` (drop the first `n` characters). -/
def pyDropChars (s : String) (n : ℕ) : String := String.mk (s.toList.drop n)

/-- Python `s[:-n]` for `1 ≤ n` (drop the last `n` characters). -/
def pyDropRightChars (s : String) (n : ℕ) : String :=
  String.mk (s.toList.take (s.toList.length - n))

/-- Python `s.find(c)`: index of the first occurrence of `c`, `-1` if absent. -/
def pyFindChar (s : String) (c : Char) : Int :=
  match s.toList.findIdx? (fun x => x == c) with
  | some i => (i : Int)
  | none => -1

/-- Python `s.rfind(c)`: index of the last occurrence of `c`, `-1` if absent. -/
def pyRFindChar (s : String) (c : Char) : Int :=
  match s.toList.reverse.findIdx? (fun x => x == c) with
  | some i => (s.toList.length : Int) - 1 - (i : Int)
  | none => -1

/-- Python `s[a:b]` for `0 ≤ a ≤ b`: the characters with indices in `[a, b)`. -/
def pySliceChars (s : String) (a b : ℕ) : String :=
  String.mk ((s.toList.drop a).take (b - a))

/-! ## `AIEngine._parse_json_response` (openclass/ai_engine.py) -/

/-- The fence-stripping preamble of `AIEngine._parse_json_response`: strip
whitespace, drop a leading ```` ```json ```` or ```` ``` ```` fence marker,
drop a trailing ```` ``` ```` fence marker, strip again. -/
def stripFences (text0 : String) : String :=
  let text1 := pyStrip text0
  let text2 :=
    if pyStartsWith text1 "```json" then pyDropChars text1 7
    else if pyStartsWith text1 "```" then pyDropChars text1 3
    else text1
  let text3 := if pyEndsWith text2 "```" then pyDropRightChars text2 3 else text2
  pyStrip text3

/-- `AIEngine._parse_json_response`: strip fences, attempt a direct decode;
on failure decode the substring from the first opening brace to the last
closing brace; `none` models the Python `return None` ("no result"). -/
def parseJsonResponse (text0 : String) : Option Json :=
  let text := stripFences text0
  match jsonLoads text with
  | some v => some v
  | none =>
      let start := pyFindChar text lbrace
      let stop := pyRFindChar text rbrace + 1
      if 0 ≤ start ∧ start < stop then jsonLoads (pySliceChars text start.toNat stop.toNat)
      else none


/-! ## openclass/events.py: event types and events -/

/-- The `EventType` enumeration of `openclass/events.py` (constructor names are
the camel-cased Python member names; the string values play no role in the
control flow of the code and are omitted). -/
inductive EventType where
  | transcriptionStarted
  | transcriptionPartial
  | transcriptionSentenceBegin
  | transcriptionSentenceEnd
  | transcriptionCompleted
  | transcriptionError
  | transcriptionTranslated
  | questionDetected
  | answerGenerated
  | suggestQuestion
  | periodicSummary
  | creativeIdeas
  | contentAnalysis
  | classStarted
  | classPaused
  | classResumed
  | classEnded
  | materialLoaded
  | systemError
  | systemWarning
  | systemInfo
  | messageReceived
  | messageSent
  | commandReceived
deriving Repr, DecidableEq

/-- The `Event` dataclass: a type, a string-keyed data dictionary (modelled as
an association list of decoded JSON values) and a source tag.  The wall-clock
`timestamp` field is never read by any code under study and is omitted. -/
structure Event where
  type : EventType
  data : List (String × Json)
  source : String
deriving Repr, DecidableEq

/-! ## Python dictionary access and truthiness on decoded values -/

/-- Last binding of `key`, if any (later duplicate keys win, as in a Python
dict built by `json.loads`). -/
def JsonMembers.getLast? : JsonMembers → String → Option Json
  | JsonMembers.nil, _ => none
  | JsonMembers.cons k v tl, key =>
      match tl.getLast? key with
      | some r => some r
      | none => if k = key then some v else none

/-- Python `d.get(key, dflt)` on a decoded value.  A non-dict receiver raises
`AttributeError` in Python; every call site under study wraps the access in a
`try`/`except` whose handler publishes nothing, which coincides with returning
the default here. -/
def Json.getD (j : Json) (key : String) (dflt : Json) : Json :=
  match j with
  | Json.obj kvs => (kvs.getLast? key).getD dflt
  | _ => dflt

/-- Python truthiness of a decoded JSON value. -/
def pyTruthy : Json → Bool
  | Json.null => false
  | Json.bool b => b
  | Json.num q => decide (q ≠ 0)
  | Json.str s => decide (s ≠ "")
  | Json.arr JsonSeq.nil => false
  | Json.arr (JsonSeq.cons _ _) => true
  | Json.obj JsonMembers.nil => false
  | Json.obj (JsonMembers.cons _ _ _) => true

/-- Numeric value of a decoded JSON value for an order comparison against a
float.  Python treats `bool` as numeric (`True >= 0.7` holds); comparing a
non-numeric value raises `TypeError`, which the call site under study catches
with a handler that publishes nothing — the `none` case. -/
def pyNumVal : Json → Option ℚ
  | Json.num q => some q
  | Json.bool b => some (if b then 1 else 0)
  | _ => none

/-! ## `AIEngine._detect_question` (openclass/ai_engine.py)

The detection task runs under `_analysis_lock`, so its executions are
serialized; one execution is a pure function of the sentence buffer, the
dedup state and the reply of the LLM.  The LLM (`self.llm.chat` with the fixed
system prompt and the question-detection prompt instantiated with the
transcript window) is abstracted as a function from the window text to the
reply text.
-/

/-- Dedup state of the engine: `_last_transcript_for_detection` (read with
`getattr` defaulting to the empty string) and `_last_detected_question`
(initialized to `""`; it holds whatever `result.get("question_text", "")`
returned, hence a decoded value). -/
structure DedupState where
  lastTranscriptForDetection : String
  lastDetectedQuestion : Json
deriving Repr, DecidableEq

/-- The initial dedup state of the engine from `AIEngine.__init__`. -/
def initialDedupState : DedupState :=
  { lastTranscriptForDetection := "", lastDetectedQuestion := Json.str "" }

/-- The acceptance threshold `0.7` of `_detect_question`. -/
def confidenceThreshold : ℚ := mkRat 7 10

/-- The detection window: the last 5 sentences of the buffer
(`self._sentence_buffer[-5:] if len(...) >= 5 else self._sentence_buffer`)
joined with newlines. -/
def detectWindow (sentenceBuffer : List String) : String :=
  let recent :=
    if 5 ≤ sentenceBuffer.length then sentenceBuffer.drop (sentenceBuffer.length - 5)
    else sentenceBuffer
  String.intercalate "\n" recent

/-- The acceptance test of `_detect_question`:
`result and result.get("is_question") and result.get("confidence", 0) >= 0.7`. -/
def detectionAccepted (r : Json) : Bool :=
  pyTruthy r && pyTruthy (Json.getD r "is_question" Json.null) &&
    (match pyNumVal (Json.getD r "confidence" (Json.num 0)) with
     | some c => decide (confidenceThreshold ≤ c)
     | none => false)

/-- Lines 290-321 of `_detect_question`: given the parsed reply, decide
acceptance (`result` truthy, `is_question` truthy, `confidence >= 0.7`),
suppress a repeat of the immediately preceding detected question (only a
truthy `question_text` is compared), and otherwise publish the
question-detected and answer-generated events and remember the text.
Returns the published events and the new `_last_detected_question`. -/
def processDetectionResult (lastDetectedQuestion : Json) (result : Option Json) :
    List Event × Json :=
  match result with
  | none => ([], lastDetectedQuestion)
  | some r =>
      if detectionAccepted r then
        let questionText := Json.getD r "question_text" (Json.str "")
        if pyTruthy questionText && questionText == lastDetectedQuestion then
          ([], lastDetectedQuestion)
        else
          ([{ type := EventType.questionDetected,
              data := [("question", questionText),
                       ("question_type", Json.getD r "question_type" (Json.str "")),
                       ("answer", Json.getD r "answer" (Json.str "")),
                       ("confidence", Json.getD r "confidence" (Json.num 0)),
                       ("explanation", Json.getD r "explanation" (Json.str ""))],
              source := "ai_engine" },
            { type := EventType.answerGenerated,
              data := [("question", questionText),
                       ("answer", Json.getD r "answer" (Json.str "")),
                       ("question_type", Json.getD r "question_type" (Json.str ""))],
              source := "ai_engine" }],
           questionText)
      else ([], lastDetectedQuestion)

/-- One serialized execution of `_detect_question`: build the 5-sentence
window; if it equals the previous window, skip without calling the LLM;
otherwise remember the window, call the LLM, parse the reply and process the
result.  Returns (LLM called?, published events, new state). -/
def detectQuestion (llm : String → String) (sentenceBuffer : List String) (st : DedupState) :
    Bool × List Event × DedupState :=
  let transcript := detectWindow sentenceBuffer
  if transcript == st.lastTranscriptForDetection then (false, [], st)
  else
    let st1 : DedupState := { st with lastTranscriptForDetection := transcript }
    let result := parseJsonResponse (llm transcript)
    let processed := processDetectionResult st1.lastDetectedQuestion result
    (true, processed.1, { st1 with lastDetectedQuestion := processed.2 })

/-! ## `AIEngine._periodic_loop` (openclass/ai_engine.py)

Clock values are modelled as integer epoch seconds; the loop compares and
subtracts them only, so nothing is lost against the float seconds of Python for
the integral instants considered here.
-/

/-- `_last_summary_time` and `_last_suggest_time`. -/
structure SchedulerClock where
  lastSummaryTime : ℤ
  lastSuggestTime : ℤ
deriving Repr, DecidableEq

/-- `AIEngine.__init__` sets both timestamps to `0` — the epoch, not the time
the engine is constructed or started. -/
def initialSchedulerClock : SchedulerClock :=
  { lastSummaryTime := 0, lastSuggestTime := 0 }

/-- `_suggest_interval = 300` seconds. -/
def suggestInterval : ℤ := 300

/-- One wake of `_periodic_loop` (after its 30-second sleep), at wall-clock
`now`: the summary gate fires when enabled, `now - _last_summary_time`
reaches `_summary_interval` and the sentence buffer holds more than 5
sentences, and then resets `_last_summary_time := now` immediately — the
generation task is launched detached and is not represented.  The suggestion
gate is analogous with `suggestInterval` and more than 10 sentences.
Returns (summary fired?, suggestion fired?, new clock). -/
def periodicWake (enableSummary enableSuggest : Bool) (summaryInterval : ℤ)
    (bufferLen : ℕ) (now : ℤ) (st : SchedulerClock) : Bool × Bool × SchedulerClock :=
  let fireSummary := enableSummary && decide (summaryInterval ≤ now - st.lastSummaryTime)
      && decide (5 < bufferLen)
  let st1 := if fireSummary then { st with lastSummaryTime := now } else st
  let fireSuggest := enableSuggest && decide (suggestInterval ≤ now - st1.lastSuggestTime)
      && decide (10 < bufferLen)
  let st2 := if fireSuggest then { st1 with lastSuggestTime := now } else st1
  (fireSummary, fireSuggest, st2)


/-! ## `EventBus` (openclass/events.py)

The bus is polymorphic in the handler representation `H` (Python stores
coroutine functions; only their identity and behaviour matter).  The behaviour of a handler is an environment `H → Event → Except PyExn Unit`; raising is an
`Except.error`.  `publish` is modelled as returning the updated bus together
with the list of handler invocations it performed, inside `Except` so that an
uncaught exception, were there one, would show up as `Except.error`.
-/

/-- A Python exception value. -/
inductive PyExn where
  | exn (msg : String)
deriving Repr, DecidableEq

/-- `EventBus.__init__` state: `_handlers` (a dict, keys unique), `_global_handlers`,
`_event_history`, `_max_history`. -/
structure EventBus (H : Type) where
  handlers : List (EventType × List H)
  globalHandlers : List H
  eventHistory : List Event
  maxHistory : ℕ

/-- A fresh bus: empty registries and history, capacity 1000. -/
def EventBus.init (H : Type) : EventBus H :=
  { handlers := [], globalHandlers := [], eventHistory := [], maxHistory := 1000 }

/-- Python `self._handlers.get(event.type, [])`. -/
def EventBus.handlersFor {H : Type} (bus : EventBus H) (t : EventType) : List H :=
  match bus.handlers.find? (fun p => p.1 == t) with
  | some p => p.2
  | none => []

/-- `EventBus.subscribe`: create the list for the key if absent, then append. -/
def EventBus.subscribe {H : Type} (bus : EventBus H) (t : EventType) (h : H) : EventBus H :=
  if (bus.handlers.find? (fun p => p.1 == t)).isSome then
    { bus with handlers := bus.handlers.map (fun p => if p.1 == t then (p.1, p.2 ++ [h]) else p) }
  else
    { bus with handlers := bus.handlers ++ [(t, [h])] }

/-- `EventBus.subscribe_all`. -/
def EventBus.subscribeAll {H : Type} (bus : EventBus H) (h : H) : EventBus H :=
  { bus with globalHandlers := bus.globalHandlers ++ [h] }

/-- Python `history[-limit:]` for a non-negative `limit`: with `limit = 0` the
slice starts at `-0 = 0` and returns the whole list; otherwise the last
`limit` elements (all of them when `limit` exceeds the length). -/
def pyTakeLast {α : Type} (l : List α) (limit : ℕ) : List α :=
  if limit = 0 then l else l.drop (l.length - limit)

/-- The history update at the top of `EventBus.publish`: append, then cut back
to the most recent `_max_history` entries when over capacity. -/
def EventBus.recordHistory {H : Type} (bus : EventBus H) (e : Event) : EventBus H :=
  let hist0 := bus.eventHistory ++ [e]
  { bus with eventHistory := if bus.maxHistory < hist0.length then pyTakeLast hist0 bus.maxHistory else hist0 }

/-- `EventBus._safe_call`: run the handler, catch and log any exception.  The
invocation record is returned either way; no error propagates. -/
def safeCall {H : Type} (behavior : H → Event → Except PyExn Unit) (h : H) (e : Event) :
    Except PyExn (H × Event) :=
  match behavior h e with
  | Except.ok _ => Except.ok (h, e)
  | Except.error _ => Except.ok (h, e)

/-- The `asyncio.gather` of `_safe_call` tasks in `publish`, sequenced: an
`Except.error` from any call would abort the remaining ones, which is exactly
what `_safe_call`'s catch prevents. -/
def runHandlers {H : Type} (behavior : H → Event → Except PyExn Unit) :
    List H → Event → Except PyExn (List (H × Event))
  | [], _ => Except.ok []
  | h :: rest, e => do
      let call ← safeCall behavior h e
      let calls ← runHandlers behavior rest e
      pure (call :: calls)

/-- `EventBus.publish`: record the event in the bounded history, collect the
kind-specific then the global handlers, return early if there are none,
otherwise invoke each through `_safe_call`.  Returns the updated bus and the
invocation log. -/
def EventBus.publish {H : Type} (bus : EventBus H) (behavior : H → Event → Except PyExn Unit)
    (e : Event) : Except PyExn (EventBus H × List (H × Event)) := do
  let bus1 := bus.recordHistory e
  let hs := bus.handlersFor e.type ++ bus.globalHandlers
  if hs.isEmpty then
    pure (bus1, [])
  else do
    let calls ← runHandlers behavior hs e
    pure (bus1, calls)

/-- A sequence of `publish` calls, threading the bus state.  The error branch
is unreachable (`publish` never raises; see `eventbus_publish_fanout`). -/
def EventBus.publishAll {H : Type} (bus : EventBus H) (behavior : H → Event → Except PyExn Unit) :
    List Event → EventBus H
  | [] => bus
  | e :: es =>
      match bus.publish behavior e with
      | Except.ok out => EventBus.publishAll out.1 behavior es
      | Except.error _ => bus

/-- `EventBus.get_history`: filter by type when one is given (an `EventType`
value is always truthy in Python, `None` is falsy), then take the most recent
`limit` entries with a `[-limit:]` slice. -/
def EventBus.getHistory {H : Type} (bus : EventBus H) (eventType : Option EventType)
    (limit : ℕ) : List Event :=
  let history :=
    match eventType with
    | some t => bus.eventHistory.filter (fun e => e.type == t)
    | none => bus.eventHistory
  pyTakeLast history limit

/-! ## `AudioCapture._enqueue` (openclass/audio.py)

`_enqueue` always runs on the event-loop thread (the capture thread hands it
over with `call_soon_threadsafe`), so its executions are serialized and the
queue is modelled as a list, oldest first.  `put_nowait` raises `QueueFull`
exactly when the queue holds `maxsize` items; `get_nowait` removes the oldest
item and raises `QueueEmpty` on an empty queue (swallowed by `pass`).
-/

/-- `asyncio.Queue(maxsize=500)` from `AudioCapture.__init__`. -/
def audioQueueMaxsize : ℕ := 500

/-- `AudioCapture._enqueue`: try to insert; when full, discard one oldest
frame and retry; if somehow still full, drop the new frame. -/
def AudioCapture.enqueue {α : Type} (q : List α) (data : α) : List α :=
  if q.length < audioQueueMaxsize then q ++ [data]
  else
    let q1 := q.drop 1
    if q1.length < audioQueueMaxsize then q1 ++ [data] else q1

/-- A sequence of `_enqueue` calls starting from queue `q`. -/
def AudioCapture.enqueueAll {α : Type} (q : List α) (frames : List α) : List α :=
  frames.foldl AudioCapture.enqueue q

/-! ## `TingwuClient` streaming lifecycle (openclass/speech.py)

The lifecycle state is `meeting_join_url` (set by a successful
`create_realtime_task`), `_ws` (an open stream, or `None`) and `_running`.
Messages put on the wire are logged explicitly.
-/

/-- A message sent over the streaming connection. -/
inductive WsMessage where
  | startTranscription
  | stopTranscription
  | audio (frame : ℕ)
deriving Repr, DecidableEq

/-- The lifecycle fields of `TingwuClient.__init__`. -/
structure TingwuClient where
  meetingJoinUrl : Option String
  wsOpen : Bool
  running : Bool
deriving Repr, DecidableEq

/-- A freshly constructed client: no session, no stream, not running. -/
def TingwuClient.init : TingwuClient :=
  { meetingJoinUrl := none, wsOpen := false, running := false }

/-- The `RuntimeError` raised by `start_streaming` without a created session
(named LifecycleError in the spec). -/
def sessionNotCreatedError : PyExn := PyExn.exn "请先创建实时记录任务"

/-- The success path of `create_realtime_task`: store the returned
`MeetingJoinUrl`. -/
def TingwuClient.createRealtimeTask (st : TingwuClient) (url : String) : TingwuClient :=
  { st with meetingJoinUrl := some url }

/-- `start_streaming`: without a stored `meeting_join_url`, raise before
touching the network; otherwise open the stream, set `_running`, send
`StartTranscription`. -/
def TingwuClient.startStreaming (st : TingwuClient) :
    Except PyExn (TingwuClient × List WsMessage) :=
  match st.meetingJoinUrl with
  | none => Except.error sessionNotCreatedError
  | some _ =>
      Except.ok ({ st with wsOpen := true, running := true }, [WsMessage.startTranscription])

/-- `send_audio`: a frame goes on the wire only when a stream is open and the
client is running; a send failure is caught and logged, so the call always
returns normally.  Returns the frames actually sent. -/
def TingwuClient.sendAudio (st : TingwuClient) (frame : ℕ) : List WsMessage :=
  if st.wsOpen && st.running then [WsMessage.audio frame] else []

/-- `stop_streaming`: when a stream is open and running, send
`StopTranscription` (failures caught), clear `_running`, cancel the receive
task and close and clear `_ws`; otherwise do nothing. -/
def TingwuClient.stopStreaming (st : TingwuClient) : TingwuClient × List WsMessage :=
  if st.wsOpen && st.running then
    ({ st with running := false, wsOpen := false }, [WsMessage.stopTranscription])
  else (st, [])

/-! ## Concrete values used to instantiate the theorems -/

/-- A bus with three retained events (used to instantiate `get_history`). -/
def sampleBus : EventBus Unit :=
  { handlers := [], globalHandlers := [],
    eventHistory :=
      [{ type := EventType.systemInfo, data := [], source := "a" },
       { type := EventType.systemInfo, data := [], source := "b" },
       { type := EventType.systemWarning, data := [], source := "c" }],
    maxHistory := 1000 }

/-- A parsed detection result with confidence 0.65 (below threshold). -/
def lowConfidenceResult : Json :=
  Json.obj (JsonMembers.ofList
    [("is_question", Json.bool true),
     ("question_text", Json.str "什么是极限?"),
     ("question_type", Json.str "direct"),
     ("answer", Json.str "函数在该点附近的取值趋于的数"),
     ("confidence", Json.num (mkRat 65 100))])

/-- A parsed detection result with confidence 0.70 (at threshold) and a
non-empty question text. -/
def highConfidenceResult : Json :=
  Json.obj (JsonMembers.ofList
    [("is_question", Json.bool true),
     ("question_text", Json.str "什么是极限?"),
     ("question_type", Json.str "direct"),
     ("answer", Json.str "函数在该点附近的取值趋于的数"),
     ("confidence", Json.num (mkRat 7 10))])

/-- An LLM reply whose detection result is accepted (`is_question` true,
confidence 1) but carries an empty `question_text`. -/
def emptyQuestionReply : String :=
  "\x7b\"is_question\": true, \"confidence\": 1, \"question_text\": \"\", \"answer\": \"x\"\x7d"

/-- An LLM that always answers `emptyQuestionReply`. -/
def cexLLM : String → String := fun _ => emptyQuestionReply

/-! ## Theorems -/

/-- Claim C1 (amended): with the 600-second summary interval and a buffer of 6
sentences, a periodic wake with `now` 599 seconds past `_last_summary_time`
fires no summary; a wake 600 seconds past it fires the summary and resets
`_last_summary_time` to `now` immediately (the generation task is detached);
and a summary fires only when at least 600 seconds have elapsed since
`_last_summary_time` — which is `0`, the epoch, at startup, not the time the
scheduler was started. -/
theorem periodic_summary_gating (st : SchedulerClock) (now : ℤ) :
    (now - st.lastSummaryTime = 599 → (periodicWake true true 600 6 now st).1 = false) ∧
    (now - st.lastSummaryTime = 600 →
      (periodicWake true true 600 6 now st).1 = true ∧
      (periodicWake true true 600 6 now st).2.2.lastSummaryTime = now) ∧
    ((periodicWake true true 600 6 now st).1 = true → 600 ≤ now - st.lastSummaryTime) := by
  refine ⟨?_, ?_, ?_⟩
  · intro h
    have hlt : ¬ ((600 : ℤ) ≤ now - st.lastSummaryTime) := by omega
    simp [periodicWake, decide_eq_false hlt]
  · intro h
    have hle : (600 : ℤ) ≤ now - st.lastSummaryTime := by omega
    constructor
    · simp [periodicWake, decide_eq_true hle]
    · simp [periodicWake, decide_eq_true hle]
  · intro h
    simp only [periodicWake, Bool.and_eq_true, decide_eq_true_eq] at h
    exact h.1.2

/-- Witness for `periodic_summary_gating` at a concrete state and instant. -/
theorem periodic_summary_gating_witness :
    (periodicWake true true 600 6 600 initialSchedulerClock).1 = true ∧
    (periodicWake true true 600 6 600 initialSchedulerClock).2.2.lastSummaryTime = 600 :=
  (periodic_summary_gating initialSchedulerClock 600).2.1 (by decide)

/-- Counterexample to claim C1 as stated: `__init__` sets `_last_summary_time`
to `0` (the epoch), not to the time the engine starts.  For a scheduler
started at epoch second 1000000, the first periodic wake happens at 1000030
(after the 30-second sleep) and already fires a summary with a 6-sentence
buffer, although only 30 < 600 seconds have elapsed since the scheduler was
started. -/
theorem periodic_summary_fires_before_interval_since_start :
    (periodicWake true true 600 6 1000030 initialSchedulerClock).1 = true ∧
    (1000030 : ℤ) - 1000000 < 600 := by decide

/-- The enqueue step keeps the channel within its capacity. -/
theorem AudioCapture.enqueue_length_le {α : Type} (q : List α) (d : α)
    (h : q.length ≤ audioQueueMaxsize) :
    (AudioCapture.enqueue q d).length ≤ audioQueueMaxsize := by
  simp only [AudioCapture.enqueue]
  split
  · simpa using by omega
  · split <;> simp <;> omega

/-- A fold of enqueue steps keeps the channel within its capacity. -/
theorem AudioCapture.enqueueAll_length_le {α : Type} (frames : List α) (q : List α)
    (h : q.length ≤ audioQueueMaxsize) :
    (AudioCapture.enqueueAll q frames).length ≤ audioQueueMaxsize := by
  induction frames generalizing q with
  | nil => simpa [AudioCapture.enqueueAll] using h
  | cons f rest ih =>
      simpa [AudioCapture.enqueueAll] using
        ih (AudioCapture.enqueue q f) (AudioCapture.enqueue_length_le q f h)

/-- Claim C8: starting from the empty channel, any sequence of `_enqueue`
calls leaves at most 500 frames in the channel; and an `_enqueue` on a full
channel evicts exactly the single oldest queued frame and then inserts the
new frame at the back — the new frame is never dropped. -/
theorem audio_channel_overflow {α : Type} (frames : List α) (q : List α) (d : α) :
    (AudioCapture.enqueueAll ([] : List α) frames).length ≤ audioQueueMaxsize ∧
    (q.length = audioQueueMaxsize → AudioCapture.enqueue q d = q.drop 1 ++ [d]) := by
  constructor
  · exact AudioCapture.enqueueAll_length_le frames [] (by simp)
  · intro h
    simp only [audioQueueMaxsize] at h
    simp only [AudioCapture.enqueue, audioQueueMaxsize]
    rw [if_neg (by omega), if_pos (by simp only [List.length_drop]; omega)]

/-- Witness for `audio_channel_overflow` on a concrete full channel. -/
theorem audio_channel_overflow_witness :
    AudioCapture.enqueue (List.replicate 500 (0 : ℕ)) 7 =
      (List.replicate 500 (0 : ℕ)).drop 1 ++ [7] :=
  (audio_channel_overflow [] (List.replicate 500 0) 7).2
    (by rw [List.length_replicate, audioQueueMaxsize])

/-- Claim C9: `send_audio` with no open stream sends nothing and returns
normally; `stop_streaming` on an already-closed client is a no-op, in
particular a second `stop_streaming` after any first one does nothing; and
`start_streaming` without a created session fails with the lifecycle
`RuntimeError` instead of opening a stream. -/
theorem stream_lifecycle_guards (st : TingwuClient) (frame : ℕ) :
    (st.wsOpen = false → st.sendAudio frame = []) ∧
    TingwuClient.stopStreaming (TingwuClient.stopStreaming st).1 =
      ((TingwuClient.stopStreaming st).1, []) ∧
    (st.meetingJoinUrl = none → st.startStreaming = Except.error sessionNotCreatedError) := by
  refine ⟨?_, ?_, ?_⟩
  · intro h
    simp [TingwuClient.sendAudio, h]
  · by_cases h : (st.wsOpen && st.running) = true <;>
      simp [TingwuClient.stopStreaming, h]
  · intro h
    simp [TingwuClient.startStreaming, h]

/-- Witness for `stream_lifecycle_guards` on a freshly constructed client. -/
theorem stream_lifecycle_guards_witness :
    TingwuClient.init.sendAudio 3 = [] ∧
    TingwuClient.init.startStreaming = Except.error sessionNotCreatedError :=
  ⟨(stream_lifecycle_guards TingwuClient.init 3).1 rfl,
   (stream_lifecycle_guards TingwuClient.init 3).2.2 rfl⟩

/-- Claim C10: `get_history` with `limit = 0` returns the entire stored
history (the `[-0:]` slice is the whole list); with a positive `limit` it
returns the most recent `min limit length` events as a suffix of the stored
history. -/
theorem get_history_limit_semantics (H : Type) (bus : EventBus H) (limit : ℕ) :
    bus.getHistory none 0 = bus.eventHistory ∧
    (0 < limit →
      bus.getHistory none limit = bus.eventHistory.drop (bus.eventHistory.length - limit) ∧
      (bus.getHistory none limit).length = min limit bus.eventHistory.length) := by
  constructor
  · simp [EventBus.getHistory, pyTakeLast]
  · intro h
    constructor
    · simp [EventBus.getHistory, pyTakeLast, Nat.pos_iff_ne_zero.mp h]
    · simp only [EventBus.getHistory, pyTakeLast, if_neg (Nat.pos_iff_ne_zero.mp h),
        List.length_drop]
      omega

/-- Witness for `get_history_limit_semantics` on a concrete bus. -/
theorem get_history_limit_semantics_witness :
    sampleBus.getHistory none 2 = sampleBus.eventHistory.drop (sampleBus.eventHistory.length - 2) ∧
    (sampleBus.getHistory none 2).length = min 2 sampleBus.eventHistory.length :=
  (get_history_limit_semantics Unit sampleBus 2).2 (by decide)

/-- `runHandlers` invokes every listed handler exactly once, in order, and
never propagates an error, whatever behaviour the handlers have. -/
theorem runHandlers_eq {H : Type} (behavior : H → Event → Except PyExn Unit)
    (hs : List H) (e : Event) :
    runHandlers behavior hs e = Except.ok (hs.map (fun h => (h, e))) := by
  induction hs with
  | nil => rfl
  | cons h rest ih =>
      cases hb : behavior h e <;> simp only [runHandlers, safeCall, hb, ih] <;> rfl

/-- The full behaviour of `publish`: history recorded, every kind-specific
then global handler invoked exactly once, normal return. -/
theorem publish_spec {H : Type} (bus : EventBus H) (behavior : H → Event → Except PyExn Unit)
    (e : Event) :
    bus.publish behavior e =
      Except.ok (bus.recordHistory e,
        (bus.handlersFor e.type ++ bus.globalHandlers).map (fun h => (h, e))) := by
  by_cases hemp : (bus.handlersFor e.type ++ bus.globalHandlers).isEmpty
  · have h0 : bus.handlersFor e.type ++ bus.globalHandlers = [] := by
      simpa [List.isEmpty_iff] using hemp
    simp only [EventBus.publish, h0, List.isEmpty_nil, if_true, List.map_nil]
    rfl
  · simp [EventBus.publish, hemp, runHandlers_eq]

/-- Claim C6: for every published event, every handler subscribed to the
kind of the event plus every global handler is invoked exactly once with that
event (in registration order, kind-specific first), and `publish` returns
normally whatever the handlers do — in particular the result does not depend
on whether any handler raises, so an error in one handler never suppresses a
sibling handler. -/
theorem eventbus_publish_fanout {H : Type} (bus : EventBus H)
    (behavior : H → Event → Except PyExn Unit) (e : Event) :
    bus.publish behavior e =
      Except.ok (bus.recordHistory e,
        (bus.handlersFor e.type ++ bus.globalHandlers).map (fun h => (h, e))) ∧
    bus.publish behavior e = bus.publish (fun _ _ => Except.ok ()) e := by
  refine ⟨publish_spec bus behavior e, ?_⟩
  rw [publish_spec, publish_spec]

/-- `recordHistory` keeps exactly the most recent 1000 entries. -/
theorem recordHistory_eq {H : Type} (bus : EventBus H) (e : Event)
    (hmax : bus.maxHistory = 1000) (_hlen : bus.eventHistory.length ≤ 1000) :
    (bus.recordHistory e).eventHistory
      = (bus.eventHistory ++ [e]).drop ((bus.eventHistory ++ [e]).length - 1000) := by
  simp only [EventBus.recordHistory, hmax, pyTakeLast]
  split
  · rw [if_neg (by decide)]
  · rw [Nat.sub_eq_zero_of_le (by omega), List.drop_zero]

/-- Dropping to the last `n` entries is stable under later appends: keeping
the last `n` of (last `n` of `l`, then `m`) is keeping the last `n` of
`l ++ m`. -/
theorem drop_lastN_append {α : Type} (l m : List α) (n : ℕ) :
    (l.drop (l.length - n) ++ m).drop ((l.drop (l.length - n) ++ m).length - n)
      = (l ++ m).drop ((l ++ m).length - n) := by
  rcases Nat.le_total n l.length with h | h
  · have h1 : (l ++ m).drop (l.length - n) = l.drop (l.length - n) ++ m := by
      rw [List.drop_append_eq_append_drop, Nat.sub_eq_zero_of_le (Nat.sub_le _ _),
        List.drop_zero]
    rw [← h1, List.drop_drop]
    congr 1
    simp only [List.length_drop, List.length_append]
    omega
  · rw [Nat.sub_eq_zero_of_le h, List.drop_zero]

/-- Running a sequence of publishes keeps exactly the most recent 1000 of all
events published so far. -/
theorem publishAll_history {H : Type} (behavior : H → Event → Except PyExn Unit)
    (es : List Event) :
    ∀ (bus : EventBus H), bus.maxHistory = 1000 → bus.eventHistory.length ≤ 1000 →
      (bus.publishAll behavior es).eventHistory
        = (bus.eventHistory ++ es).drop ((bus.eventHistory ++ es).length - 1000) := by
  induction es with
  | nil =>
      intro bus hmax hlen
      simp only [EventBus.publishAll, List.append_nil]
      rw [Nat.sub_eq_zero_of_le hlen, List.drop_zero]
  | cons e es ih =>
      intro bus hmax hlen
      have hrec := recordHistory_eq bus e hmax hlen
      have hrecmax : (bus.recordHistory e).maxHistory = 1000 := by
        simpa [EventBus.recordHistory] using hmax
      have hreclen : (bus.recordHistory e).eventHistory.length ≤ 1000 := by
        rw [hrec]
        simp only [List.length_drop]
        omega
      calc (bus.publishAll behavior (e :: es)).eventHistory
          = ((bus.recordHistory e).publishAll behavior es).eventHistory := by
            simp only [EventBus.publishAll, publish_spec]
        _ = ((bus.recordHistory e).eventHistory ++ es).drop
              (((bus.recordHistory e).eventHistory ++ es).length - 1000) :=
            ih _ hrecmax hreclen
        _ = ((bus.eventHistory ++ [e]) ++ es).drop
              (((bus.eventHistory ++ [e]) ++ es).length - 1000) := by
            rw [hrec]
            exact drop_lastN_append _ _ _
        _ = (bus.eventHistory ++ e :: es).drop
              ((bus.eventHistory ++ e :: es).length - 1000) := by
            simp [List.append_assoc]

/-- Claim C7: after any sequence of publishes on a fresh bus, the stored
history holds at most 1000 events; it is exactly the suffix of the most
recent 1000 published events in arrival order (so the oldest are evicted
first); and `get_history` with `limit = 1000` returns exactly those events. -/
theorem eventbus_history_bounded {H : Type} (behavior : H → Event → Except PyExn Unit)
    (es : List Event) :
    ((EventBus.init H).publishAll behavior es).eventHistory.length ≤ 1000 ∧
    ((EventBus.init H).publishAll behavior es).eventHistory = es.drop (es.length - 1000) ∧
    ((EventBus.init H).publishAll behavior es).getHistory none 1000
      = es.drop (es.length - 1000) := by
  have h := publishAll_history behavior es (EventBus.init H) rfl (by rw [show (EventBus.init H).eventHistory = [] from rfl]; simp)
  rw [show (EventBus.init H).eventHistory = [] from rfl, List.nil_append] at h
  refine ⟨?_, h, ?_⟩
  · rw [h]
    simp only [List.length_drop]
    omega
  · simp only [EventBus.getHistory, h, pyTakeLast]
    rw [if_neg (by decide),
      Nat.sub_eq_zero_of_le (by simp only [List.length_drop]; omega), List.drop_zero]

/-- Claim C5: a detection run whose 5-sentence window differs from the
previous one calls the LLM; an immediately following run whose window is
identical (as joined text) skips without calling the LLM, publishes nothing
and leaves the state unchanged — two consecutive triggers with an identical
window yield exactly one reasoning-capability call. -/
theorem detection_window_dedup (llm : String → String) (sentenceBuffer : List String)
    (st : DedupState)
    (hfresh : detectWindow sentenceBuffer ≠ st.lastTranscriptForDetection)
    (sentenceBuffer2 : List String)
    (hsame : detectWindow sentenceBuffer2 = detectWindow sentenceBuffer) :
    (detectQuestion llm sentenceBuffer st).1 = true ∧
    detectQuestion llm sentenceBuffer2 (detectQuestion llm sentenceBuffer st).2.2 =
      (false, [], (detectQuestion llm sentenceBuffer st).2.2) := by
  have hbe : (detectWindow sentenceBuffer == st.lastTranscriptForDetection) = false :=
    beq_eq_false_iff_ne.mpr hfresh
  constructor
  · simp [detectQuestion, hbe]
  · have hstate : (detectQuestion llm sentenceBuffer st).2.2.lastTranscriptForDetection
        = detectWindow sentenceBuffer := by
      simp [detectQuestion, hbe]
    set st1 := (detectQuestion llm sentenceBuffer st).2.2 with hst1
    have hbe2 : (detectWindow sentenceBuffer2 == st1.lastTranscriptForDetection) = true := by
      rw [hsame, hstate]
      exact beq_self_eq_true _
    simp only [detectQuestion]
    rw [if_pos hbe2]

/-- Witness for `detection_window_dedup`: the same one-sentence buffer
delivered twice. -/
theorem detection_window_dedup_witness :
    (detectQuestion (fun _ => "nonsense") ["第一句"] initialDedupState).1 = true ∧
    detectQuestion (fun _ => "nonsense") ["第一句"]
        ((detectQuestion (fun _ => "nonsense") ["第一句"] initialDedupState).2.2) =
      (false, [], (detectQuestion (fun _ => "nonsense") ["第一句"] initialDedupState).2.2) :=
  detection_window_dedup (fun _ => "nonsense") ["第一句"] initialDedupState (by decide)
    ["第一句"] rfl

/-- The acceptance test, unfolded. -/
theorem detectionAccepted_iff (r : Json) :
    detectionAccepted r = true ↔
      pyTruthy r = true ∧ pyTruthy (Json.getD r "is_question" Json.null) = true ∧
      ∃ c : ℚ, pyNumVal (Json.getD r "confidence" (Json.num 0)) = some c ∧
        confidenceThreshold ≤ c := by
  unfold detectionAccepted
  rcases hnum : pyNumVal (Json.getD r "confidence" (Json.num 0)) with _ | c <;>
    simp [hnum, Bool.and_eq_true, decide_eq_true_eq, and_assoc]

/-- Claim C3: question-detected/answer-generated events are published only if
`is_question` is truthy and the numeric confidence is at least 0.7; a result
with confidence 0.65 publishes nothing, and a non-duplicate result with
`is_question` true and confidence 0.70 publishes exactly the
question-detected/answer-generated pair. -/
theorem detection_confidence_threshold :
    (∀ (last r : Json),
        (processDetectionResult last (some r)).1 ≠ [] →
        pyTruthy (Json.getD r "is_question" Json.null) = true ∧
        ∃ c : ℚ, pyNumVal (Json.getD r "confidence" (Json.num 0)) = some c ∧
          confidenceThreshold ≤ c) ∧
    processDetectionResult (Json.str "") (some lowConfidenceResult) = ([], Json.str "") ∧
    (processDetectionResult (Json.str "") (some highConfidenceResult)).1.map Event.type
      = [EventType.questionDetected, EventType.answerGenerated] := by
  refine ⟨?_, by decide, by decide⟩
  intro last r hpub
  have hacc : detectionAccepted r = true := by
    by_contra hneg
    exact hpub (by simp only [processDetectionResult, if_neg hneg])
  obtain ⟨_, hq, c, hc, hthr⟩ := (detectionAccepted_iff r).mp hacc
  exact ⟨hq, c, hc, hthr⟩

/-- Witness for `detection_confidence_threshold` on the accepted result. -/
theorem detection_confidence_threshold_witness :
    pyTruthy (Json.getD highConfidenceResult "is_question" Json.null) = true ∧
    ∃ c : ℚ, pyNumVal (Json.getD highConfidenceResult "confidence" (Json.num 0)) = some c ∧
      confidenceThreshold ≤ c :=
  detection_confidence_threshold.1 (Json.str "") highConfidenceResult (by decide)

/-- Claim C4 (amended): two consecutive accepted detections with the same
truthy (non-empty) `question_text` produce exactly one
question-detected/answer-generated pair — the second is suppressed and leaves
the state unchanged.  (With an empty `question_text` the suppression check is
skipped; see `duplicate_empty_question_not_suppressed`.) -/
theorem adjacent_duplicate_suppression (last r : Json)
    (hpub : (processDetectionResult last (some r)).1 ≠ [])
    (htruthy : pyTruthy (Json.getD r "question_text" (Json.str "")) = true) :
    (processDetectionResult last (some r)).1.map Event.type
      = [EventType.questionDetected, EventType.answerGenerated] ∧
    processDetectionResult (processDetectionResult last (some r)).2 (some r)
      = ([], (processDetectionResult last (some r)).2) := by
  have hacc : detectionAccepted r = true := by
    by_contra hneg
    exact hpub (by simp only [processDetectionResult, if_neg hneg])
  by_cases hdup : (pyTruthy (Json.getD r "question_text" (Json.str "")) &&
      (Json.getD r "question_text" (Json.str "") == last)) = true
  · exact absurd (by simp only [processDetectionResult]; rw [if_pos hacc, if_pos hdup]) hpub
  · have hst : (processDetectionResult last (some r)).2
        = Json.getD r "question_text" (Json.str "") := by
      simp only [processDetectionResult]
      rw [if_pos hacc, if_neg hdup]
    constructor
    · simp only [processDetectionResult]
      rw [if_pos hacc, if_neg hdup]
      simp
    · rw [hst]
      have hinner : (pyTruthy (Json.getD r "question_text" (Json.str "")) &&
          (Json.getD r "question_text" (Json.str "")
            == Json.getD r "question_text" (Json.str ""))) = true := by
        simp [htruthy]
      simp only [processDetectionResult]
      rw [if_pos hacc, if_pos hinner]

/-- Witness for `adjacent_duplicate_suppression` on a concrete accepted
result with a non-empty question text. -/
theorem adjacent_duplicate_suppression_witness :
    (processDetectionResult (Json.str "") (some highConfidenceResult)).1.map Event.type
      = [EventType.questionDetected, EventType.answerGenerated] ∧
    processDetectionResult (processDetectionResult (Json.str "") (some highConfidenceResult)).2
        (some highConfidenceResult)
      = ([], (processDetectionResult (Json.str "") (some highConfidenceResult)).2) :=
  adjacent_duplicate_suppression (Json.str "") highConfidenceResult (by decide) (by decide)

/-- Counterexample to claim C4 as stated: two consecutive accepted detections
whose `question_text` values are identical but empty both publish a full
question-detected/answer-generated pair — the Python guard
`if question_text and question_text == self._last_detected_question` skips
the suppression for a falsy (empty) text, so the second detection is not
suppressed.  The two detection runs use distinct windows (the buffer grew), so
the window dedup does not intervene. -/
theorem duplicate_empty_question_not_suppressed :
    ((detectQuestion cexLLM ["第一句"] initialDedupState).2.1).map Event.type
      = [EventType.questionDetected, EventType.answerGenerated] ∧
    ((detectQuestion cexLLM ["第一句", "第二句"]
        (detectQuestion cexLLM ["第一句"] initialDedupState).2.2).2.1).map Event.type
      = [EventType.questionDetected, EventType.answerGenerated] := by decide

/-- Claim C2: a reply whose fence-stripped text decodes directly yields that
decoded value — in particular the fenced example yields the singleton mapping;
when direct decoding fails, the substring from the first opening brace to the
last closing brace is decoded, as in the prefix/suffix example; and when the
stripped text has no opening brace at all and does not decode, the parser
returns no result (`none`) rather than raising. -/
theorem parse_json_response_behavior :
    (∀ (text : String) (v : Json), jsonLoads (stripFences text) = some v →
        parseJsonResponse text = some v) ∧
    parseJsonResponse "```json\n\x7b\"a\":1\x7d\n```"
      = some (Json.obj (JsonMembers.ofList [("a", Json.num 1)])) ∧
    parseJsonResponse "prefix \x7b\"a\":1\x7d suffix"
      = some (Json.obj (JsonMembers.ofList [("a", Json.num 1)])) ∧
    (∀ text : String, jsonLoads (stripFences text) = none →
        pyFindChar (stripFences text) lbrace = -1 → parseJsonResponse text = none) := by
  refine ⟨?_, by decide, by decide, ?_⟩
  · intro text v h
    simp [parseJsonResponse, h]
  · intro text h1 h2
    simp only [parseJsonResponse, h1, h2]
    rw [if_neg (by omega)]

/-- Witness for `parse_json_response_behavior`: a direct decode and a
no-braces failure. -/
theorem parse_json_response_behavior_witness :
    parseJsonResponse "\x7b\"ok\": true\x7d"
      = some (Json.obj (JsonMembers.ofList [("ok", Json.bool true)])) ∧
    parseJsonResponse "there are no braces here" = none :=
  ⟨parse_json_response_behavior.1 "\x7b\"ok\": true\x7d" _ (by decide),
   parse_json_response_behavior.2.2.2 "there are no braces here" (by decide) (by decide)⟩
